import Mathlib

/-!
# Verification of the foodgram shopping-cart aggregation pipeline

A shallow embedding, in Lean 4, of the shopping-cart core of the
foodgram recipe backend:

* the data model (`Ingredient`, `RecipeIngredient`, `ShoppingCartRow`,
  `Recipe`) from `backend/recipes/models.py`;
* the ingredient aggregation query of
  `RecipeViewSet.download_shopping_cart`
  (`backend/api/views/recipes_views.py`): filter the `RecipeIngredient`
  rows whose recipe is in the requesting user's cart, group them by the
  pair (ingredient name, measurement unit), sum `amount` within a group,
  and order the groups by ingredient name;
* the PDF pagination loop of `create_shopping_cart`
  (`backend/api/utils.py`): a vertical cursor starts at 750, each line
  lowers it by 20, and when it falls to 50 or below the page is flushed
  and the cursor restarts at 800; a final unconditional flush ends the
  document;
* the recipe update path of `RecipeCreateSerializer.update`
  (`backend/api/serializers.py`), which rewrites scalar fields with
  `validated_data` defaults and replaces the ingredient associations
  wholesale;
* the cart/favorite membership toggle of `RecipeViewSet.get_shopping_cart`
  (`backend/api/views/recipes_views.py`).

Theorems about these definitions settle the frozen specification claims.
-/

/-! ## Data model (backend/recipes/models.py) -/

/-- `Ingredient`: numeric id, free-text `name` and `measurement_unit`
(`recipes/models.py`, class `Ingredient`). -/
structure Ingredient where
  id : Nat
  name : String
  measurement_unit : String
deriving DecidableEq, Repr

/-- `RecipeIngredient`: association row carrying the per-recipe `amount`
of one ingredient (`recipes/models.py`, class `RecipeIngredient`).
Foreign keys are modelled as numeric ids. -/
structure RecipeIngredient where
  recipe : Nat
  ingredient : Nat
  amount : Nat
deriving DecidableEq, Repr

/-- `ShoppingCart` membership row: one (user, recipe) pair
(`recipes/models.py`, class `ShoppingCart`). -/
structure ShoppingCartRow where
  user : Nat
  recipe : Nat
deriving DecidableEq, Repr

/-- The slice of the persistent store that the aggregation query and the
membership endpoints read: the ingredient catalog, the recipe ids that
exist, the `RecipeIngredient` association rows, and the shopping-cart
membership rows. -/
structure Store where
  ingredients : List Ingredient
  recipes : List Nat
  recipe_ingredients : List RecipeIngredient
  shopping_cart : List ShoppingCartRow
deriving Repr

/-- One aggregated line of the shopping-cart report, as produced by the
`values(...).annotate(ingredient_value=Sum('amount'))` query: the
dictionary `{ingredient__name, ingredient__measurement_unit,
ingredient_value}`. -/
structure CartLine where
  name : String
  measurement_unit : String
  amount : Nat
deriving DecidableEq, Repr

/-! ## Aggregation query (`download_shopping_cart`, recipes_views.py) -/

/-- The joined rows underlying the aggregation query: every
`RecipeIngredient` row whose recipe is in user `u`'s shopping cart
(`RecipeIngredient.objects.filter(recipe__shopping_cart__user=u)`),
joined with its `Ingredient` record to expose
`(ingredient__name, ingredient__measurement_unit, amount)`. -/
def cartRows (s : Store) (u : Nat) : List (String × String × Nat) :=
  (s.recipe_ingredients.filter fun ri =>
      s.shopping_cart.any fun sc => sc.user == u && sc.recipe == ri.recipe).filterMap
    fun ri =>
      (s.ingredients.find? fun ing => ing.id == ri.ingredient).map
        fun ing => (ing.name, ing.measurement_unit, ri.amount)

/-- The grouping keys of the query: the distinct
`(ingredient__name, ingredient__measurement_unit)` pairs occurring in
the joined rows (the `values(...)` clause groups by this pair, not by
ingredient id). -/
def cartKeys (s : Store) (u : Nat) : List (String × String) :=
  ((cartRows s u).map fun r => (r.1, r.2.1)).dedup

/-- The aggregation of `download_shopping_cart`: one line per distinct
(name, unit) key, with `ingredient_value = Sum('amount')` over the rows
of that key, ordered ascending by `ingredient__name`
(`order_by('ingredient__name')`). -/
def aggregate (s : Store) (u : Nat) : List CartLine :=
  (List.insertionSort (fun a b => a.1 ≤ b.1) (cartKeys s u)).map fun k =>
    { name := k.1, measurement_unit := k.2,
      amount := (((cartRows s u).filter fun r =>
        r.1 == k.1 && r.2.1 == k.2).map fun r => r.2.2).sum }

instance : IsTrans (String × String) (fun a b => a.1 ≤ b.1) :=
  ⟨fun _ _ _ h h' => le_trans h h'⟩

instance : IsTotal (String × String) (fun a b => a.1 ≤ b.1) :=
  ⟨fun a b => le_total a.1 b.1⟩

/-! ## PDF rendering (`create_shopping_cart`, backend/api/utils.py)

The reportlab canvas is modelled as the list of pages already emitted by
`showPage()` together with the page currently under construction.  A
page records the title string drawn on it (if any) and the ingredient
lines drawn on it; each drawn line keeps the two strings the source
writes with `drawString` (the `"{number}."` tag at x = 50 and the
`"{name}: {value} {unit}."` body at x = 70) and the vertical cursor
position `from_bottom` at which they were drawn.  `save()` emits no
further page: the loop's trailing `showPage()` has already flushed the
current page, leaving an empty canvas. -/

/-- One rendered ingredient line: its 1-based running `number`, the
cursor height `y` (`from_bottom`) it was drawn at, and the two strings
the source draws at x = 50 and x = 70. -/
structure Entry where
  num : Nat
  y : Int
  numText : String
  bodyText : String
deriving DecidableEq, Repr

/-- One PDF page: the title drawn on it (if any) and its ingredient
lines, in drawing order. -/
structure Page where
  title : Option String
  entries : List Entry
deriving DecidableEq, Repr

/-- The canvas: pages emitted by `showPage()` so far, plus the page
currently being drawn on. -/
structure Canvas where
  pages : List Page
  cur : Page
deriving DecidableEq, Repr

def emptyPage : Page := { title := none, entries := [] }

/-- `pdf_file.showPage()`: flush the current page and start a fresh one. -/
def showPage (c : Canvas) : Canvas :=
  { pages := c.pages ++ [c.cur], cur := emptyPage }

/-- The pair of strings drawn for line `num` of a cart line `l`:
`f"{number}."` and `f"{name}: {value} {unit}."`. -/
def mkEntry (num : Nat) (y : Int) (l : CartLine) : Entry :=
  { num := num, y := y,
    numText := toString num ++ ".",
    bodyText := l.name ++ ": " ++ toString l.amount ++ " " ++ l.measurement_unit ++ "." }

/-- Draw one ingredient line onto the current page. -/
def drawEntry (c : Canvas) (num : Nat) (y : Int) (l : CartLine) : Canvas :=
  { c with cur := { c.cur with entries := c.cur.entries ++ [mkEntry num y l] } }

/-- `pdf_file.drawString(200, 800, 'Список покупок.')`: the title, drawn
once on the current (first) page before the loop. -/
def drawTitle (c : Canvas) : Canvas :=
  { c with cur := { c.cur with title := some "Список покупок." } }

/-- The `for number, ingredient in enumerate(ingredients_cart, start=1)`
loop of `create_shopping_cart`: draw the line at `from_bottom`, lower
`from_bottom` by 20, and if it reaches 50 or below, reset it to 800 and
flush the page. -/
def renderLoop : List CartLine → Nat → Int → Canvas → Canvas
  | [], _, _, c => c
  | l :: ls, num, from_bottom, c =>
    let c1 := drawEntry c num from_bottom l
    if from_bottom - 20 ≤ 50 then
      renderLoop ls (num + 1) 800 (showPage c1)
    else
      renderLoop ls (num + 1) (from_bottom - 20) c1

/-- `create_shopping_cart`: title on the first page, the numbered line
loop starting at `from_bottom = 750`, then the unconditional final
`showPage()`.  The result is the page list of the finished document
(`save()` emits nothing further, the canvas being empty after the final
flush). -/
def create_shopping_cart (ingredients_cart : List CartLine) : List Page :=
  (showPage (renderLoop ingredients_cart 1 750 (drawTitle { pages := [], cur := emptyPage }))).pages

/-! ### Closed forms for the rendered document

`pageSplit` recomputes the page list of `create_shopping_cart`
recursively (same cursor arithmetic, but building the page list
directly); `entriesSeq` recomputes the flat sequence of drawn lines.
Both are bridged to `create_shopping_cart` by induction and give the
handles the pagination proofs work with. -/

/-- Append one drawn line to a page. -/
def addEntry (pg : Page) (e : Entry) : Page :=
  { pg with entries := pg.entries ++ [e] }

/-- The page list produced by the rendering loop from a current page
`cur`, cursor `fb`, next line number `num`: same recursion as
`renderLoop`, building the page list directly. -/
def pageSplit : List CartLine → Nat → Int → Page → List Page
  | [], _, _, cur => [cur]
  | l :: ls, num, fb, cur =>
    let cur1 := addEntry cur (mkEntry num fb l)
    if fb - 20 ≤ 50 then
      cur1 :: pageSplit ls (num + 1) 800 emptyPage
    else
      pageSplit ls (num + 1) (fb - 20) cur1

/-- The flat sequence of lines drawn by the loop, with the cursor value
each is drawn at. -/
def entriesSeq : List CartLine → Nat → Int → List Entry
  | [], _, _ => []
  | l :: ls, num, fb =>
    mkEntry num fb l :: entriesSeq ls (num + 1) (if fb - 20 ≤ 50 then 800 else fb - 20)

/-- The ingredient-line numbers appearing on a page, in drawing order. -/
def pageNums (pg : Page) : List Nat :=
  pg.entries.map (·.num)

/-- Capacity of the page the cursor currently points into: the number of
further lines drawn before the cursor (starting at `fb`, stepping by
−20) falls to 50 or below.  `cap 750 = 35`, `cap 800 = 38`. -/
def cap (fb : Int) : Nat :=
  ((fb - 50).toNat + 19) / 20

/-- Arithmetic closed form of the per-page line numbers: the current
page finishes with `acc` plus the next `cap fb` numbers (or all `n` that
remain), and every later page takes 38 more, the last page of the
document being whatever remains — possibly empty. -/
def allNums (acc : List Nat) (num : Nat) (fb : Int) (n : Nat) : List (List Nat) :=
  if n < cap fb then
    [acc ++ List.range' num n]
  else
    (acc ++ List.range' num (cap fb)) ::
      (List.range ((n - cap fb) / 38 + 1)).map fun i =>
        List.range' (num + cap fb + 38 * i) (min 38 (n - cap fb - 38 * i))

/-- Where line `k` (1-based) lands: `k` is on page `p` (1-based) of the
document `doc`. -/
def lineOnPage (doc : List Page) (k p : Nat) : Prop :=
  ∃ pg, doc[p - 1]? = some pg ∧ k ∈ pageNums pg

/-! ### Bridging the canvas loop to the closed forms -/

theorem renderLoop_pages (ls : List CartLine) :
    ∀ (num : Nat) (fb : Int) (pages : List Page) (cur : Page),
      (showPage (renderLoop ls num fb { pages := pages, cur := cur })).pages =
        pages ++ pageSplit ls num fb cur := by
  induction ls with
  | nil => intro num fb pages cur; rfl
  | cons l ls ih =>
    intro num fb pages cur
    by_cases hb : fb - 20 ≤ 50
    · have h1 : renderLoop (l :: ls) num fb { pages := pages, cur := cur } =
          renderLoop ls (num + 1) 800
            { pages := pages ++ [addEntry cur (mkEntry num fb l)], cur := emptyPage } := by
        simp only [renderLoop, if_pos hb]
        rfl
      rw [h1, ih]
      simp only [pageSplit, if_pos hb]
      simp
    · have h1 : renderLoop (l :: ls) num fb { pages := pages, cur := cur } =
          renderLoop ls (num + 1) (fb - 20)
            { pages := pages, cur := addEntry cur (mkEntry num fb l) } := by
        simp only [renderLoop, if_neg hb]
        rfl
      rw [h1, ih]
      simp only [pageSplit, if_neg hb]

/-- The document of `create_shopping_cart` is `pageSplit` started on the
titled first page with cursor 750 and line number 1. -/
theorem create_shopping_cart_eq_pageSplit (ls : List CartLine) :
    create_shopping_cart ls =
      pageSplit ls 1 750 { title := some "Список покупок.", entries := [] } := by
  show (showPage (renderLoop ls 1 750 _)).pages = _
  rw [renderLoop_pages]
  rfl

theorem cap_pos {fb : Int} (h : 50 < fb) : 1 ≤ cap fb := by
  unfold cap; omega

theorem cap_750 : cap 750 = 35 := by decide

theorem cap_800 : cap 800 = 38 := by decide

/-- Unfolding `allNums` across one drawn line: the head number `num`
joins the current page, and the page is flushed exactly when the cursor
would fall to 50 or below. -/
theorem allNums_cons (acc : List Nat) (num : Nat) (fb : Int) (m : Nat) (h : 50 < fb) :
    allNums acc num fb (m + 1) =
      if fb - 20 ≤ 50 then
        (acc ++ [num]) :: allNums [] (num + 1) 800 m
      else
        allNums (acc ++ [num]) (num + 1) (fb - 20) m := by
  by_cases hb : fb - 20 ≤ 50
  · have hc : cap fb = 1 := by unfold cap; omega
    rw [if_pos hb]
    simp only [allNums, hc, cap_800]
    rw [if_neg (show ¬ m + 1 < 1 by omega)]
    by_cases hm : m < 38
    · rw [if_pos hm]
      rw [show (m + 1 - 1) / 38 + 1 = 1 from by omega]
      rw [show List.range 1 = [0] from rfl]
      simp only [List.map_cons, List.map_nil, List.range'_one, List.nil_append]
      rw [show num + 1 + 38 * 0 = num + 1 from by omega]
      rw [show min 38 (m + 1 - 1 - 38 * 0) = m from by omega]
    · rw [if_neg hm]
      rw [show (m + 1 - 1) / 38 + 1 = ((m - 38) / 38 + 1) + 1 from by omega]
      rw [List.range_succ_eq_map]
      simp only [List.map_cons, List.map_map, List.range'_one, List.nil_append]
      congr 1
      congr 1
      · congr 3 <;> omega
      · apply List.map_congr_left
        intro i _
        simp only [Function.comp_apply, Nat.succ_eq_add_one]
        rw [show num + 1 + 38 * (i + 1) = num + 1 + 38 + 38 * i from by ring]
        rw [show min 38 (m + 1 - 1 - 38 * (i + 1)) = min 38 (m - 38 - 38 * i) from by omega]
  · rw [if_neg hb]
    obtain ⟨c, hc⟩ : ∃ c, cap fb = c + 2 := by
      refine ⟨cap fb - 2, ?_⟩
      unfold cap; omega
    have hc' : cap (fb - 20) = c + 1 := by
      unfold cap at hc ⊢; omega
    by_cases hm : m + 1 < c + 2
    · simp only [allNums, hc, hc', if_pos hm, if_pos (show m < c + 1 from by omega)]
      rw [List.range'_succ]
      simp
    · simp only [allNums, hc, hc', if_neg hm, if_neg (show ¬ m < c + 1 from by omega)]
      congr 1
      · rw [show c + 2 = c + 1 + 1 from by omega, List.range'_succ]
        simp
      · rw [show (m + 1 - (c + 2)) / 38 + 1 = (m - (c + 1)) / 38 + 1 from by omega]
        apply List.map_congr_left
        intro i _
        rw [show num + (c + 2) + 38 * i = num + 1 + (c + 1) + 38 * i from by ring]
        rw [show min 38 (m + 1 - (c + 2) - 38 * i) = min 38 (m - (c + 1) - 38 * i) from by omega]

/-- The per-page line numbers of the rendering loop are the arithmetic
closed form `allNums`. -/
theorem pageSplit_map_pageNums (ls : List CartLine) :
    ∀ (num : Nat) (fb : Int) (cur : Page), 50 < fb →
      (pageSplit ls num fb cur).map pageNums =
        allNums (pageNums cur) num fb ls.length := by
  induction ls with
  | nil =>
    intro num fb cur h
    simp only [pageSplit, List.map_cons, List.map_nil, List.length_nil, allNums]
    rw [if_pos (show 0 < cap fb from cap_pos h)]
    simp
  | cons l ls ih =>
    intro num fb cur h
    rw [List.length_cons, allNums_cons _ _ _ _ h]
    by_cases hb : fb - 20 ≤ 50
    · simp only [pageSplit, if_pos hb, List.map_cons]
      rw [ih _ 800 emptyPage (by norm_num)]
      have he : pageNums (addEntry cur (mkEntry num fb l)) = pageNums cur ++ [num] := by
        simp [pageNums, addEntry, mkEntry]
      rw [he]
      rfl
    · simp only [pageSplit, if_neg hb]
      rw [ih _ (fb - 20) _ (by omega)]
      have he : pageNums (addEntry cur (mkEntry num fb l)) = pageNums cur ++ [num] := by
        simp [pageNums, addEntry, mkEntry]
      rw [he]

/-- Only the page the loop started on can carry a title: every page the
loop itself opens starts blank. -/
theorem pageSplit_title (ls : List CartLine) :
    ∀ (num : Nat) (fb : Int) (cur : Page) (p : Nat) (pg : Page),
      (pageSplit ls num fb cur)[p]? = some pg →
      pg.title = if p = 0 then cur.title else none := by
  induction ls with
  | nil =>
    intro num fb cur p pg hp
    match p, hp with
    | 0, hp =>
      simp only [pageSplit, List.getElem?_cons_zero] at hp
      cases hp
      rfl
  | cons l ls ih =>
    intro num fb cur p pg hp
    by_cases hb : fb - 20 ≤ 50
    · simp only [pageSplit, if_pos hb] at hp
      match p, hp with
      | 0, hp =>
        simp only [List.getElem?_cons_zero] at hp
        cases hp
        simp [addEntry]
      | q + 1, hp =>
        simp only [List.getElem?_cons_succ] at hp
        have := ih _ 800 emptyPage q pg hp
        simp only [if_pos rfl] at this ⊢
        rw [this]
        cases q <;> simp [emptyPage]
    · simp only [pageSplit, if_neg hb] at hp
      have := ih _ (fb - 20) _ p pg hp
      rw [this]
      cases p <;> simp [addEntry]

/-- The flat sequence of drawn lines in the document: current page's
lines, then `entriesSeq`. -/
theorem pageSplit_flat_entries (ls : List CartLine) :
    ∀ (num : Nat) (fb : Int) (cur : Page),
      ((pageSplit ls num fb cur).map Page.entries).flatten =
        cur.entries ++ entriesSeq ls num fb := by
  induction ls with
  | nil => intro num fb cur; simp [pageSplit, entriesSeq]
  | cons l ls ih =>
    intro num fb cur
    by_cases hb : fb - 20 ≤ 50
    · simp only [pageSplit, if_pos hb, List.map_cons, List.flatten_cons, entriesSeq]
      rw [ih]
      simp [addEntry, emptyPage]
    · simp only [pageSplit, if_neg hb, entriesSeq]
      rw [ih]
      simp [addEntry]

/-- The `k`-th drawn line (0-based) of `entriesSeq` renders the `k`-th
cart line with running number `num + k`. -/
theorem entriesSeq_getElem (ls : List CartLine) :
    ∀ (num : Nat) (fb : Int) (k : Nat) (l : CartLine), ls[k]? = some l →
      ∃ y, (entriesSeq ls num fb)[k]? = some (mkEntry (num + k) y l) := by
  induction ls with
  | nil => intro num fb k l hl; simp at hl
  | cons a ls ih =>
    intro num fb k l hl
    match k, hl with
    | 0, hl =>
      simp only [List.getElem?_cons_zero] at hl
      cases hl
      refine ⟨fb, ?_⟩
      simp [entriesSeq]
    | k + 1, hl =>
      simp only [List.getElem?_cons_succ] at hl
      obtain ⟨y, hy⟩ := ih (num + 1) (if fb - 20 ≤ 50 then 800 else fb - 20) k l hl
      refine ⟨y, ?_⟩
      simp only [entriesSeq, List.getElem?_cons_succ]
      rw [hy]
      congr 2
      omega

/-! ### The rendered document at the top level -/

/-- The per-page line numbers of the whole document, in closed form. -/
theorem create_map_pageNums (ls : List CartLine) :
    (create_shopping_cart ls).map pageNums = allNums [] 1 750 ls.length := by
  rw [create_shopping_cart_eq_pageSplit,
    pageSplit_map_pageNums ls 1 750 _ (by norm_num)]
  rfl

/-- Page count of the document, in closed form: one page while fewer
than 35 lines, then `(n − 35) / 38 + 2`. -/
theorem create_length (ls : List CartLine) :
    (create_shopping_cart ls).length =
      if ls.length < 35 then 1 else (ls.length - 35) / 38 + 2 := by
  have h := congrArg List.length (create_map_pageNums ls)
  rw [List.length_map] at h
  rw [h]
  simp only [allNums, cap_750]
  by_cases hn : ls.length < 35
  · rw [if_pos hn, if_pos hn]
    rfl
  · rw [if_neg hn, if_neg hn]
    simp [List.length_map, List.length_range]

/-- Titles in the document: the title string on page 1, nothing on any
later page. -/
theorem create_title (ls : List CartLine) (p : Nat) (pg : Page)
    (hp : (create_shopping_cart ls)[p]? = some pg) :
    pg.title = if p = 0 then some "Список покупок." else none := by
  rw [create_shopping_cart_eq_pageSplit] at hp
  exact pageSplit_title ls 1 750 _ p pg hp

/-- The flat sequence of drawn lines of the whole document. -/
theorem create_flat_entries (ls : List CartLine) :
    ((create_shopping_cart ls).map Page.entries).flatten = entriesSeq ls 1 750 := by
  rw [create_shopping_cart_eq_pageSplit, pageSplit_flat_entries]
  rfl

/-- `lineOnPage` through the closed form `allNums`. -/
theorem lineOnPage_iff (ls : List CartLine) (k p : Nat) :
    lineOnPage (create_shopping_cart ls) k p ↔
      ∃ nums, (allNums [] 1 750 ls.length)[p - 1]? = some nums ∧ k ∈ nums := by
  rw [← create_map_pageNums]
  unfold lineOnPage
  constructor
  · rintro ⟨pg, hpg, hk⟩
    refine ⟨pageNums pg, ?_, hk⟩
    rw [List.getElem?_map, hpg]
    rfl
  · rintro ⟨nums, hnums, hk⟩
    rw [List.getElem?_map] at hnums
    obtain ⟨pg, hpg, rfl⟩ := Option.map_eq_some'.1 hnums
    exact ⟨pg, hpg, hk⟩

/-! ## Recipe write path (`RecipeCreateSerializer.update`, serializers.py) -/

/-- A stored `Recipe` with its scalar fields and tag ids
(`recipes/models.py`, class `Recipe`).  The ingredient associations live
in the separate `RecipeIngredient` rows. -/
structure Recipe where
  id : Nat
  name : String
  text : String
  cooking_time : Nat
  image : String
  tags : List Nat
deriving DecidableEq, Repr

/-- The `validated_data` of an update request: scalar fields are
optional (`validated_data.get(field, default)`), while the serializer
declares `tags` and `ingredients` as required collections, so an update
request carries both in full.  Each ingredient entry is an
(ingredient id, amount) pair
(`RecipeIngredientCreateSerializer`). -/
structure ValidatedData where
  image : Option String
  name : Option String
  text : Option String
  cooking_time : Option Nat
  tags : List Nat
  ingredients : List (Nat × Nat)
deriving DecidableEq, Repr

/-- `RecipeCreateSerializer.update(instance, validated_data)` together
with its effect on the `RecipeIngredient` table `rows` (the source
binds `recipe = instance`; `instance` is reserved in Lean, so the
parameter is named `recipe`):

* scalar fields are rewritten with
  `validated_data.get(field, default)` — and, exactly as in the source,
  the default for `text` is `instance.name`
  (`instance.text = validated_data.get('text', instance.name)`);
* `instance.tags.clear()` then `instance.tags.set(tags_data)`:
  the tag ids are replaced by the submitted list;
* `RecipeIngredient.objects.filter(recipe=recipe).delete()` then
  `bulk_create`: every existing association row of this recipe is
  removed and the submitted list is appended. -/
def serializerUpdate (recipe : Recipe) (rows : List RecipeIngredient)
    (validated_data : ValidatedData) : Recipe × List RecipeIngredient :=
  let recipe1 : Recipe :=
    { recipe with
      image := validated_data.image.getD recipe.image,
      name := validated_data.name.getD recipe.name,
      text := validated_data.text.getD recipe.name,
      cooking_time := validated_data.cooking_time.getD recipe.cooking_time,
      tags := validated_data.tags }
  let rows1 := rows.filter fun ri => ri.recipe != recipe.id
  (recipe1,
    rows1 ++ validated_data.ingredients.map fun p =>
      { recipe := recipe.id, ingredient := p.1, amount := p.2 })

/-! ## Cart membership toggle (`RecipeViewSet.get_shopping_cart`,
recipes_views.py)

`POST /recipes/{pk}/shopping_cart` first resolves the recipe
(`get_object_or_404`), then validates a `ShoppingCartSerializer` whose
model declares the `UniqueConstraint(user, recipe)` of
`recipes/models.py` — a duplicate pair therefore fails validation
(`is_valid(raise_exception=True)`, a 400 response) — and on success
saves the row and returns 201 with the recipe's read representation
(`RecipeSerializer(recipe).data`, modelled by the recipe id).
`DELETE` resolves the recipe, then `get_object_or_404(ShoppingCart,
user=..., recipe=...)` — 404 when the membership is absent — and
deletes the row, returning 204 with empty body. -/

/-- An HTTP response: status code, and the id of the recipe whose read
representation forms the body (`none` for an empty body). -/
structure ApiResponse where
  status : Nat
  body : Option Nat
deriving DecidableEq, Repr

/-- Membership test for the (user, recipe) pair in the cart store. -/
def inCart (s : Store) (u pk : Nat) : Bool :=
  s.shopping_cart.any fun sc => sc.user == u && sc.recipe == pk

/-- `POST /recipes/{pk}/shopping_cart` for user `u`. -/
def get_shopping_cart_post (s : Store) (u pk : Nat) : ApiResponse × Store :=
  if pk ∈ s.recipes then
    if inCart s u pk then
      ({ status := 400, body := none }, s)
    else
      ({ status := 201, body := some pk },
        { s with shopping_cart := s.shopping_cart ++ [{ user := u, recipe := pk }] })
  else
    ({ status := 404, body := none }, s)

/-- `DELETE /recipes/{pk}/shopping_cart` for user `u`. -/
def get_shopping_cart_delete (s : Store) (u pk : Nat) : ApiResponse × Store :=
  if pk ∈ s.recipes then
    if inCart s u pk then
      ({ status := 204, body := none },
        { s with shopping_cart :=
            s.shopping_cart.eraseP fun sc => sc.user == u && sc.recipe == pk })
    else
      ({ status := 404, body := none }, s)
  else
    ({ status := 404, body := none }, s)

/-! ## Claim theorems -/

/-- C9: the renderer's page capacities are fixed by its cursor
arithmetic: the first page holds exactly 35 ingredient lines (cursor
from 750, −20 per line, break at ≤ 50) and every later page holds 38
(cursor restarts at 800); for an input of `n ≥ 1` lines, line `k`
(1 ≤ k ≤ n) lands on page 1 iff `k ≤ 35`, and on page `p ≥ 2` iff
`35 + 38·(p−2) < k ≤ 35 + 38·(p−1)`. -/
theorem C9_page_capacities (ls : List CartLine) (k : Nat)
    (h1 : 1 ≤ k) (hk : k ≤ ls.length) :
    (lineOnPage (create_shopping_cart ls) k 1 ↔ k ≤ 35) ∧
    (∀ p, 2 ≤ p →
      (lineOnPage (create_shopping_cart ls) k p ↔
        35 + 38 * (p - 2) < k ∧ k ≤ 35 + 38 * (p - 1))) := by
  constructor
  · rw [lineOnPage_iff]
    simp only [allNums, cap_750]
    by_cases hn : ls.length < 35
    · rw [if_pos hn]
      simp [List.mem_range'_1]
      omega
    · rw [if_neg hn]
      simp [List.mem_range'_1]
      omega
  · intro p hp
    rw [lineOnPage_iff]
    simp only [allNums, cap_750]
    by_cases hn : ls.length < 35
    · rw [if_pos hn]
      rw [show p - 1 = (p - 2) + 1 from by omega]
      simp only [List.getElem?_cons_succ, List.getElem?_nil]
      constructor
      · rintro ⟨nums, hnone, -⟩
        cases hnone
      · rintro ⟨hlo, -⟩
        omega
    · rw [if_neg hn]
      rw [show p - 1 = (p - 2) + 1 from by omega]
      simp only [List.getElem?_cons_succ, List.getElem?_map]
      by_cases hq : p - 2 < (ls.length - 35) / 38 + 1
      · rw [List.getElem?_range hq]
        simp only [Option.map_some', Option.some.injEq]
        constructor
        · rintro ⟨nums, rfl, hmem⟩
          rw [List.mem_range'_1] at hmem
          omega
        · intro hb
          refine ⟨_, rfl, ?_⟩
          rw [List.mem_range'_1]
          omega
      · rw [List.getElem?_eq_none (by simpa using by omega)]
        simp only [Option.map_none']
        constructor
        · rintro ⟨nums, hnone, -⟩
          cases hnone
        · rintro ⟨hlo, hhi⟩
          omega

/-- C10: when the page break fires exactly on the last line
(`n = 35 + 38·m`), the unconditional final flush emits an additional
trailing page with no ingredient lines: the document has `m + 2` pages
but only `m + 1` of them carry lines. -/
theorem C10_trailing_blank_page (ls : List CartLine) (m : Nat)
    (hlen : ls.length = 35 + 38 * m) :
    (create_shopping_cart ls).length = m + 2 ∧
    (∃ pg, (create_shopping_cart ls)[m + 1]? = some pg ∧ pg.entries = []) ∧
    (create_shopping_cart ls).countP (fun pg => !pg.entries.isEmpty) = m + 1 := by
  have hnum := create_map_pageNums ls
  rw [hlen] at hnum
  refine ⟨?_, ?_, ?_⟩
  · rw [create_length, hlen, if_neg (by omega)]
    omega
  · have h0 : (allNums [] 1 750 (35 + 38 * m))[m + 1]? = some [] := by
      simp only [allNums, cap_750]
      rw [if_neg (by omega)]
      simp only [List.getElem?_cons_succ, List.getElem?_map]
      rw [List.getElem?_range (by omega)]
      simp only [Option.map_some', Option.some.injEq]
      rw [show min 38 (35 + 38 * m - 35 - 38 * m) = 0 from by omega]
      simp
    rw [← hnum, List.getElem?_map] at h0
    obtain ⟨pg, hpg, hnil⟩ := Option.map_eq_some'.1 h0
    refine ⟨pg, hpg, ?_⟩
    simpa [pageNums] using hnil
  · have hcp : (create_shopping_cart ls).countP (fun pg => !pg.entries.isEmpty) =
        ((create_shopping_cart ls).map pageNums).countP (fun nums => !nums.isEmpty) := by
      rw [List.countP_map]
      apply List.countP_congr
      intro pg _
      simp [pageNums]
    rw [hcp, hnum]
    simp only [allNums, cap_750]
    rw [if_neg (by omega)]
    rw [List.countP_cons]
    rw [show (35 + 38 * m - 35) / 38 + 1 = m + 1 from by omega]
    rw [List.countP_map, List.range_succ, List.countP_append]
    have hall : (List.range m).countP
        ((fun nums => !nums.isEmpty) ∘ fun i =>
          List.range' (1 + 35 + 38 * i) (min 38 (35 + 38 * m - 35 - 38 * i))) =
        (List.range m).length := by
      rw [List.countP_eq_length]
      intro i hi
      rw [List.mem_range] at hi
      simp only [Function.comp_apply, Bool.not_eq_eq_eq_not, Bool.not_true,
        List.isEmpty_eq_false, ne_eq, List.range'_eq_nil]
      omega
    rw [hall]
    have hone : ([m] : List Nat).countP
        ((fun nums => !nums.isEmpty) ∘ fun i =>
          List.range' (1 + 35 + 38 * i) (min 38 (35 + 38 * m - 35 - 38 * i))) = 0 := by
      simp only [List.countP_cons, List.countP_nil, Function.comp_apply,
        show min 38 (35 + 38 * m - 35 - 38 * m) = 0 from by omega]
      simp
    rw [hone]
    simp [List.range'_eq_nil]

/-- C2: rendering exactly 60 aggregated lines yields a document of
exactly 2 pages, the title only on page 1, and the lines numbered
continuously 1..60 across the page break. -/
theorem C2_sixty_lines (ls : List CartLine) (hlen : ls.length = 60) :
    (create_shopping_cart ls).length = 2 ∧
    (∀ pg, (create_shopping_cart ls)[0]? = some pg →
      pg.title = some "Список покупок.") ∧
    (∀ p pg, 1 ≤ p → (create_shopping_cart ls)[p]? = some pg → pg.title = none) ∧
    ((create_shopping_cart ls).map pageNums).flatten = List.range' 1 60 := by
  refine ⟨?_, ?_, ?_, ?_⟩
  · rw [create_length, hlen]
    rfl
  · intro pg hpg
    rw [create_title ls 0 pg hpg]
    rfl
  · intro p pg hp hpg
    rw [create_title ls p pg hpg, if_neg (by omega)]
  · rw [create_map_pageNums, hlen]
    simp only [allNums, cap_750]
    rw [if_neg (by omega)]
    rw [show (60 - 35) / 38 + 1 = 1 from by omega]
    rw [show List.range 1 = [0] from rfl]
    simp only [List.map_cons, List.map_nil, List.nil_append, List.flatten_cons,
      List.flatten_nil, List.append_nil]
    rw [show 1 + 35 + 38 * 0 = 1 + 35 from by omega]
    rw [show min 38 (60 - 35 - 38 * 0) = 25 from by omega]
    rw [List.range'_append_1]

/-- C7: an empty cart aggregates to the empty sequence (not an error),
and rendering the empty sequence yields a valid one-page document whose
only content is the title. -/
theorem C7_empty_cart (s : Store) (u : Nat)
    (h : ∀ sc ∈ s.shopping_cart, sc.user ≠ u) :
    aggregate s u = [] ∧
    create_shopping_cart (aggregate s u) =
      [{ title := some "Список покупок.", entries := [] }] := by
  have hrows : cartRows s u = [] := by
    unfold cartRows
    rw [List.filter_eq_nil_iff.2, List.filterMap_nil]
    intro ri _
    simp only [Bool.not_eq_true, List.any_eq_false]
    intro sc hsc
    have hne := h sc hsc
    simp [hne]
  have hagg : aggregate s u = [] := by
    unfold aggregate cartKeys
    rw [hrows]
    rfl
  exact ⟨hagg, by rw [hagg]; rfl⟩

/-- C8: the `k`-th drawn line of the document (0-based `k`, so the
claim's 1-based index is `k + 1`) renders exactly
`"<k+1>. <name>: <amount> <unit>."` — the `"<k+1>."` tag and the
`"<name>: <amount> <unit>."` body, joined at the same height. -/
theorem C8_line_format (ls : List CartLine) (k : Nat) (l : CartLine)
    (hl : ls[k]? = some l) :
    ∃ e, (((create_shopping_cart ls).map Page.entries).flatten)[k]? = some e ∧
      e.num = k + 1 ∧
      e.numText ++ " " ++ e.bodyText =
        toString (k + 1) ++ ". " ++ l.name ++ ": " ++ toString l.amount ++ " "
          ++ l.measurement_unit ++ "." := by
  rw [create_flat_entries]
  obtain ⟨y, hy⟩ := entriesSeq_getElem ls 1 750 k l hl
  refine ⟨mkEntry (1 + k) y l, hy, by simp [mkEntry]; omega, ?_⟩
  show ((toString (1 + k) ++ ".") ++ " ") ++
      (l.name ++ ": " ++ toString l.amount ++ " " ++ l.measurement_unit ++ ".") = _
  rw [Nat.add_comm 1 k]
  rw [String.append_assoc (toString (k + 1)) "." " "]
  show (toString (k + 1) ++ ". ") ++
      (l.name ++ ": " ++ toString l.amount ++ " " ++ l.measurement_unit ++ ".") = _
  simp only [String.append_assoc]

/-- A list without duplicates holding exactly one element satisfying `p`
has `countP p = 1`. -/
theorem countP_one_aux {α : Type _} (p : α → Bool) :
    ∀ l : List α, l.Nodup → ∀ a, a ∈ l → p a = true →
      (∀ b, b ∈ l → p b = true → b = a) → l.countP p = 1 := by
  intro l
  induction l with
  | nil => intro _ a ha; simp at ha
  | cons x xs ih =>
    intro hnd a ha hpa huniq
    rw [List.countP_cons]
    rcases List.mem_cons.1 ha with rfl | hxs
    · have h0 : xs.countP p = 0 := by
        rw [List.countP_eq_zero]
        intro b hb hpb
        have hba : b = a := huniq b (List.mem_cons_of_mem _ hb) hpb
        rw [List.nodup_cons] at hnd
        exact hnd.1 (hba ▸ hb)
      simp [h0, hpa]
    · have hx2 : x ≠ a := by
        rintro rfl
        rw [List.nodup_cons] at hnd
        exact hnd.1 hxs
      have hpx : ¬ p x = true := fun hpx =>
        hx2 (huniq x (List.mem_cons_self _ _) hpx)
      rw [List.nodup_cons] at hnd
      have hrec := ih hnd.2 a hxs hpa
        (fun b hb hpb => huniq b (List.mem_cons_of_mem _ hb) hpb)
      simp [hrec, hpx]

/-- C1: `aggregate` produces exactly one line per distinct
(name, measurement_unit) pair occurring among the cart's
`RecipeIngredient` rows — grouping by the pair, not by ingredient id, so
distinct ingredient records sharing name and unit merge — and each
line's total is the sum of `amount` over exactly the rows of that
pair. -/
theorem C1_grouping (s : Store) (u : Nat) (nm un : String) :
    ((aggregate s u).countP fun x => x.name == nm && x.measurement_unit == un) =
      (if (nm, un) ∈ ((cartRows s u).map fun r => (r.1, r.2.1)) then 1 else 0) ∧
    ∀ x ∈ aggregate s u,
      x.amount = (((cartRows s u).filter fun r =>
        r.1 == x.name && r.2.1 == x.measurement_unit).map fun r => r.2.2).sum := by
  constructor
  · unfold aggregate
    rw [List.countP_map]
    rw [show ((fun x : CartLine => x.name == nm && x.measurement_unit == un) ∘ fun k =>
        ({ name := k.1, measurement_unit := k.2,
           amount := (((cartRows s u).filter fun r =>
             r.1 == k.1 && r.2.1 == k.2).map fun r => r.2.2).sum } : CartLine)) =
        fun k : String × String => k.1 == nm && k.2 == un from rfl]
    by_cases hmem : (nm, un) ∈ ((cartRows s u).map fun r => (r.1, r.2.1))
    · rw [if_pos hmem]
      refine countP_one_aux _ _ ?_ (nm, un) ?_ ?_ ?_
      · exact ((List.perm_insertionSort _ _).nodup_iff).2 (List.nodup_dedup _)
      · exact (List.mem_insertionSort _).2 (List.mem_dedup.2 hmem)
      · simp
      · rintro ⟨a, b⟩ _ hp
        simp only [Bool.and_eq_true, beq_iff_eq] at hp
        rw [hp.1, hp.2]
    · rw [if_neg hmem]
      rw [List.countP_eq_zero]
      rintro ⟨a, b⟩ hk hp
      simp only [Bool.and_eq_true, beq_iff_eq] at hp
      rcases hp with ⟨rfl, rfl⟩
      have hmem2 : ((a, b) : String × String) ∈ cartKeys s u :=
        (List.mem_insertionSort _).1 hk
      unfold cartKeys at hmem2
      exact hmem (List.mem_dedup.1 hmem2)
  · intro x hx
    unfold aggregate at hx
    obtain ⟨k, -, rfl⟩ := List.mem_map.1 hx
    rfl

/-- C3: the aggregated sequence is sorted ascending by ingredient name,
and aggregation is deterministic — the same store yields the identical
ordered sequence on every evaluation. -/
theorem C3_sorted_deterministic (s : Store) (u : Nat) :
    (aggregate s u).Sorted (fun a b => a.name ≤ b.name) ∧
    aggregate s u = aggregate s u := by
  refine ⟨?_, rfl⟩
  have h := List.sorted_insertionSort (fun a b : String × String => a.1 ≤ b.1)
    (cartKeys s u)
  exact List.Pairwise.map _ (fun a b hab => hab) h

/-- C4: after `update(recipe, newIngredients)` the recipe's
`RecipeIngredient` rows are exactly the submitted list — all prior rows
of the recipe were deleted, the new list bulk-inserted. -/
theorem C4_replace_ingredients (recipe : Recipe) (rows : List RecipeIngredient)
    (vd : ValidatedData) :
    ((serializerUpdate recipe rows vd).2.filter fun ri => ri.recipe == recipe.id) =
      vd.ingredients.map (fun p =>
        ({ recipe := recipe.id, ingredient := p.1, amount := p.2 } : RecipeIngredient)) ∧
    ∀ ri ∈ (serializerUpdate recipe rows vd).2, ri.recipe = recipe.id →
      ri ∈ vd.ingredients.map (fun p =>
        ({ recipe := recipe.id, ingredient := p.1, amount := p.2 } : RecipeIngredient)) := by
  have hfil : ((serializerUpdate recipe rows vd).2.filter
      fun ri => ri.recipe == recipe.id) =
      vd.ingredients.map (fun p =>
        ({ recipe := recipe.id, ingredient := p.1, amount := p.2 } : RecipeIngredient)) := by
    show (((rows.filter fun ri => ri.recipe != recipe.id) ++
        vd.ingredients.map fun p =>
          ({ recipe := recipe.id, ingredient := p.1, amount := p.2 } : RecipeIngredient)).filter
        fun ri => ri.recipe == recipe.id) = _
    rw [List.filter_append]
    have h1 : ((rows.filter fun ri => ri.recipe != recipe.id).filter
        fun ri => ri.recipe == recipe.id) = [] := by
      rw [List.filter_eq_nil_iff]
      intro ri hri
      have := (List.mem_filter.1 hri).2
      simp only [bne_iff_ne, ne_eq] at this
      simp [this]
    have h2 : ((vd.ingredients.map fun p =>
        ({ recipe := recipe.id, ingredient := p.1, amount := p.2 } : RecipeIngredient)).filter
        fun ri => ri.recipe == recipe.id) =
        vd.ingredients.map fun p =>
          ({ recipe := recipe.id, ingredient := p.1, amount := p.2 } : RecipeIngredient) := by
      rw [List.filter_eq_self]
      intro ri hri
      obtain ⟨q, -, rfl⟩ := List.mem_map.1 hri
      simp
    rw [h1, h2, List.nil_append]
  refine ⟨hfil, ?_⟩
  intro ri hri hid
  rw [← hfil]
  rw [List.mem_filter]
  exact ⟨hri, by simp [hid]⟩

/-- C5 (failing input): `update` with `text` omitted overwrites the
recipe's `text` with the prior `name` — the source's
`validated_data.get('text', instance.name)` — instead of keeping the
prior `text`; the other scalar fields do keep their prior values. -/
theorem C5_text_overwritten :
    (serializerUpdate
      { id := 1, name := "A", text := "B", cooking_time := 10,
        image := "img", tags := [1] }
      []
      { image := none, name := none, text := none, cooking_time := none,
        tags := [1], ingredients := [(1, 2)] }).1.text = "A" ∧
    ({ id := 1, name := "A", text := "B", cooking_time := 10,
        image := "img", tags := [1] } : Recipe).text = "B" ∧
    (serializerUpdate
      { id := 1, name := "A", text := "B", cooking_time := 10,
        image := "img", tags := [1] }
      []
      { image := none, name := none, text := none, cooking_time := none,
        tags := [1], ingredients := [(1, 2)] }).1.name = "A" ∧
    (serializerUpdate
      { id := 1, name := "A", text := "B", cooking_time := 10,
        image := "img", tags := [1] }
      []
      { image := none, name := none, text := none, cooking_time := none,
        tags := [1], ingredients := [(1, 2)] }).1.image = "img" ∧
    (serializerUpdate
      { id := 1, name := "A", text := "B", cooking_time := 10,
        image := "img", tags := [1] }
      []
      { image := none, name := none, text := none, cooking_time := none,
        tags := [1], ingredients := [(1, 2)] }).1.cooking_time = 10 := by
  refine ⟨rfl, rfl, rfl, rfl, rfl⟩

/-- The number of cart rows for the (user, recipe) pair `(v, r)`. -/
def cartCount (cart : List ShoppingCartRow) (v r : Nat) : Nat :=
  cart.countP fun sc => sc.user == v && sc.recipe == r

/-- C6: the membership toggle contract.  Under referential integrity
(every cart row points at an existing recipe) and the store's
uniqueness constraint (at most one row per pair): a duplicate POST fails
with 400 and changes nothing; a fresh POST returns 201 with the recipe's
read representation and appends the one row; a DELETE of an absent
membership fails with 404 and changes nothing; a DELETE of a present
membership returns 204 with empty body and removes the pair's row; and
after either operation the store still holds at most one row per
pair. -/
theorem C6_membership_toggle (s : Store) (u pk : Nat)
    (hri : ∀ sc ∈ s.shopping_cart, sc.recipe ∈ s.recipes)
    (huniq : ∀ v r : Nat, cartCount s.shopping_cart v r ≤ 1) :
    (inCart s u pk = true →
      (get_shopping_cart_post s u pk).1.status = 400 ∧
      (get_shopping_cart_post s u pk).2 = s) ∧
    (pk ∈ s.recipes → inCart s u pk = false →
      (get_shopping_cart_post s u pk).1 = { status := 201, body := some pk } ∧
      (get_shopping_cart_post s u pk).2.shopping_cart =
        s.shopping_cart ++ [{ user := u, recipe := pk }]) ∧
    (inCart s u pk = false →
      (get_shopping_cart_delete s u pk).1.status = 404 ∧
      (get_shopping_cart_delete s u pk).2 = s) ∧
    (inCart s u pk = true →
      (get_shopping_cart_delete s u pk).1 = { status := 204, body := none } ∧
      cartCount (get_shopping_cart_delete s u pk).2.shopping_cart u pk = 0) ∧
    (∀ v r : Nat,
      cartCount (get_shopping_cart_post s u pk).2.shopping_cart v r ≤ 1 ∧
      cartCount (get_shopping_cart_delete s u pk).2.shopping_cart v r ≤ 1) := by
  have hmem_of_in : inCart s u pk = true →
      ∃ sc ∈ s.shopping_cart, sc.user = u ∧ sc.recipe = pk := by
    intro h
    unfold inCart at h
    obtain ⟨sc, hsc, hp⟩ := List.any_eq_true.1 h
    simp only [Bool.and_eq_true, beq_iff_eq] at hp
    exact ⟨sc, hsc, hp⟩
  have hcount_zero : inCart s u pk = false → cartCount s.shopping_cart u pk = 0 := by
    intro h
    unfold inCart at h
    unfold cartCount
    rw [List.countP_eq_zero]
    intro sc hsc
    rw [List.any_eq_false] at h
    exact h sc hsc
  refine ⟨?_, ?_, ?_, ?_, ?_⟩
  · intro hin
    obtain ⟨sc, hsc, hu, hr⟩ := hmem_of_in hin
    have hex : pk ∈ s.recipes := hr ▸ hri sc hsc
    unfold get_shopping_cart_post
    rw [if_pos hex, if_pos hin]
    exact ⟨rfl, rfl⟩
  · intro hex hnin
    unfold get_shopping_cart_post
    rw [if_pos hex, if_neg (by rw [hnin]; exact Bool.false_ne_true)]
    exact ⟨rfl, rfl⟩
  · intro hnin
    unfold get_shopping_cart_delete
    by_cases hex : pk ∈ s.recipes
    · rw [if_pos hex, if_neg (by rw [hnin]; exact Bool.false_ne_true)]
      exact ⟨rfl, rfl⟩
    · rw [if_neg hex]
      exact ⟨rfl, rfl⟩
  · intro hin
    obtain ⟨sc, hsc, hu, hr⟩ := hmem_of_in hin
    have hex : pk ∈ s.recipes := hr ▸ hri sc hsc
    unfold get_shopping_cart_delete
    rw [if_pos hex, if_pos hin]
    refine ⟨rfl, ?_⟩
    have hpsc : (sc.user == u && sc.recipe == pk) = true := by
      simp [hu, hr]
    obtain ⟨a, l₁, l₂, hl₁, hpa, hsplit, herase⟩ :=
      @List.exists_of_eraseP ShoppingCartRow
        (fun sc => sc.user == u && sc.recipe == pk) s.shopping_cart sc hsc hpsc
    unfold cartCount at huniq ⊢
    show ((s.shopping_cart.eraseP fun sc => sc.user == u && sc.recipe == pk).countP
      fun sc => sc.user == u && sc.recipe == pk) = 0
    rw [herase, List.countP_append]
    have h1 : (l₁.countP fun sc : ShoppingCartRow => sc.user == u && sc.recipe == pk) = 0 := by
      rw [List.countP_eq_zero]
      exact hl₁
    have htot := huniq u pk
    rw [hsplit, List.countP_append, List.countP_cons, if_pos hpa, h1] at htot
    omega
  · intro v r
    constructor
    · unfold get_shopping_cart_post
      by_cases hex : pk ∈ s.recipes
      · by_cases hin : inCart s u pk
        · rw [if_pos hex, if_pos hin]
          exact huniq v r
        · rw [if_pos hex, if_neg hin]
          unfold cartCount at huniq ⊢
          show ((s.shopping_cart ++ [({ user := u, recipe := pk } : ShoppingCartRow)]).countP
            fun sc => sc.user == v && sc.recipe == r) ≤ 1
          rw [List.countP_append]
          by_cases hvr : u = v ∧ pk = r
          · have h0 : cartCount s.shopping_cart v r = 0 := by
              rw [← hvr.1, ← hvr.2]
              exact hcount_zero (Bool.of_not_eq_true hin)
            unfold cartCount at h0
            rw [h0]
            simp [hvr.1, hvr.2]
          · have h1 : (([({ user := u, recipe := pk } : ShoppingCartRow)] :
                List ShoppingCartRow).countP
                fun sc => sc.user == v && sc.recipe == r) = 0 := by
              rw [List.countP_eq_zero]
              intro b hb
              simp only [List.mem_singleton] at hb
              subst hb
              simp only [Bool.and_eq_true, beq_iff_eq, not_and]
              intro h2 h3
              exact hvr ⟨h2, h3⟩
            rw [h1]
            have := huniq v r
            unfold cartCount at this
            omega
      · rw [if_neg hex]
        exact huniq v r
    · unfold get_shopping_cart_delete
      by_cases hex : pk ∈ s.recipes
      · by_cases hin : inCart s u pk
        · rw [if_pos hex, if_pos hin]
          unfold cartCount at huniq ⊢
          exact le_trans ((List.eraseP_sublist _).countP_le _) (huniq v r)
        · rw [if_pos hex, if_neg hin]
          exact huniq v r
      · rw [if_neg hex]
        exact huniq v r

/-! ## Concrete witnesses -/

/-- A concrete aggregated line. -/
def demoLine : CartLine := { name := "Сахар", measurement_unit := "г", amount := 5 }

/-- Sixty concrete aggregated lines. -/
def demoLines60 : List CartLine := List.replicate 60 demoLine

/-- Thirty-five concrete aggregated lines. -/
def demoLines35 : List CartLine := List.replicate 35 demoLine

/-- A concrete store: one ingredient, one recipe, one association row,
one cart row. -/
def demoStore : Store :=
  { ingredients := [{ id := 1, name := "Сахар", measurement_unit := "г" }],
    recipes := [1],
    recipe_ingredients := [{ recipe := 1, ingredient := 1, amount := 5 }],
    shopping_cart := [{ user := 1, recipe := 1 }] }

/-- A concrete store whose cart is empty. -/
def demoStoreEmptyCart : Store :=
  { ingredients := [{ id := 1, name := "Сахар", measurement_unit := "г" }],
    recipes := [1],
    recipe_ingredients := [{ recipe := 1, ingredient := 1, amount := 5 }],
    shopping_cart := [] }

theorem C1_grouping_witness :
    ((aggregate demoStore 1).countP fun x =>
        x.name == "Сахар" && x.measurement_unit == "г") =
      (if ("Сахар", "г") ∈ ((cartRows demoStore 1).map fun r => (r.1, r.2.1))
        then 1 else 0) ∧
    ∀ x ∈ aggregate demoStore 1,
      x.amount = (((cartRows demoStore 1).filter fun r =>
        r.1 == x.name && r.2.1 == x.measurement_unit).map fun r => r.2.2).sum :=
  C1_grouping demoStore 1 "Сахар" "г"

theorem C2_sixty_lines_witness :
    demoLines60.length = 60 ∧
    ((create_shopping_cart demoLines60).length = 2 ∧
    (∀ pg, (create_shopping_cart demoLines60)[0]? = some pg →
      pg.title = some "Список покупок.") ∧
    (∀ p pg, 1 ≤ p → (create_shopping_cart demoLines60)[p]? = some pg →
      pg.title = none) ∧
    ((create_shopping_cart demoLines60).map pageNums).flatten = List.range' 1 60) :=
  ⟨by decide, C2_sixty_lines demoLines60 (by decide)⟩

theorem C3_sorted_deterministic_witness :
    (aggregate demoStore 1).Sorted (fun a b => a.name ≤ b.name) ∧
    aggregate demoStore 1 = aggregate demoStore 1 :=
  C3_sorted_deterministic demoStore 1

theorem C4_replace_ingredients_witness :
    (((serializerUpdate
        { id := 1, name := "A", text := "B", cooking_time := 10,
          image := "img", tags := [1] }
        [{ recipe := 1, ingredient := 9, amount := 3 },
         { recipe := 2, ingredient := 9, amount := 4 }]
        { image := none, name := none, text := none, cooking_time := none,
          tags := [1], ingredients := [(1, 2)] }).2.filter
      fun ri => ri.recipe == (1 : Nat)) =
      [(1, 2)].map (fun p : Nat × Nat =>
        ({ recipe := 1, ingredient := p.1, amount := p.2 } : RecipeIngredient))) ∧
    ∀ ri ∈ (serializerUpdate
        { id := 1, name := "A", text := "B", cooking_time := 10,
          image := "img", tags := [1] }
        [{ recipe := 1, ingredient := 9, amount := 3 },
         { recipe := 2, ingredient := 9, amount := 4 }]
        { image := none, name := none, text := none, cooking_time := none,
          tags := [1], ingredients := [(1, 2)] }).2,
      ri.recipe = 1 →
        ri ∈ [(1, 2)].map (fun p : Nat × Nat =>
          ({ recipe := 1, ingredient := p.1, amount := p.2 } : RecipeIngredient)) :=
  C4_replace_ingredients
    { id := 1, name := "A", text := "B", cooking_time := 10,
      image := "img", tags := [1] }
    [{ recipe := 1, ingredient := 9, amount := 3 },
     { recipe := 2, ingredient := 9, amount := 4 }]
    { image := none, name := none, text := none, cooking_time := none,
      tags := [1], ingredients := [(1, 2)] }

theorem C6_membership_toggle_witness :
    (∀ sc ∈ demoStore.shopping_cart, sc.recipe ∈ demoStore.recipes) ∧
    ((inCart demoStore 1 1 = true →
      (get_shopping_cart_post demoStore 1 1).1.status = 400 ∧
      (get_shopping_cart_post demoStore 1 1).2 = demoStore) ∧
    ((1 : Nat) ∈ demoStore.recipes → inCart demoStore 1 1 = false →
      (get_shopping_cart_post demoStore 1 1).1 = { status := 201, body := some 1 } ∧
      (get_shopping_cart_post demoStore 1 1).2.shopping_cart =
        demoStore.shopping_cart ++ [{ user := 1, recipe := 1 }]) ∧
    (inCart demoStore 1 1 = false →
      (get_shopping_cart_delete demoStore 1 1).1.status = 404 ∧
      (get_shopping_cart_delete demoStore 1 1).2 = demoStore) ∧
    (inCart demoStore 1 1 = true →
      (get_shopping_cart_delete demoStore 1 1).1 = { status := 204, body := none } ∧
      cartCount (get_shopping_cart_delete demoStore 1 1).2.shopping_cart 1 1 = 0) ∧
    (∀ v r : Nat,
      cartCount (get_shopping_cart_post demoStore 1 1).2.shopping_cart v r ≤ 1 ∧
      cartCount (get_shopping_cart_delete demoStore 1 1).2.shopping_cart v r ≤ 1)) :=
  ⟨by decide,
    C6_membership_toggle demoStore 1 1 (by decide)
      (by
        intro v r
        show List.countP _ [({ user := 1, recipe := 1 } : ShoppingCartRow)] ≤ 1
        rw [List.countP_cons, List.countP_nil]
        split <;> omega)⟩

theorem C7_empty_cart_witness :
    (∀ sc ∈ demoStoreEmptyCart.shopping_cart, sc.user ≠ 1) ∧
    (aggregate demoStoreEmptyCart 1 = [] ∧
    create_shopping_cart (aggregate demoStoreEmptyCart 1) =
      [{ title := some "Список покупок.", entries := [] }]) :=
  ⟨by decide, C7_empty_cart demoStoreEmptyCart 1 (by decide)⟩

theorem C8_line_format_witness :
    ([demoLine][0]? = some demoLine) ∧
    ∃ e, (((create_shopping_cart [demoLine]).map Page.entries).flatten)[0]? = some e ∧
      e.num = 0 + 1 ∧
      e.numText ++ " " ++ e.bodyText =
        toString (0 + 1) ++ ". " ++ demoLine.name ++ ": "
          ++ toString demoLine.amount ++ " " ++ demoLine.measurement_unit ++ "." :=
  ⟨rfl, C8_line_format [demoLine] 0 demoLine rfl⟩

theorem C9_page_capacities_witness :
    1 ≤ 1 ∧ 1 ≤ [demoLine].length ∧
    ((lineOnPage (create_shopping_cart [demoLine]) 1 1 ↔ 1 ≤ 35) ∧
    (∀ p, 2 ≤ p →
      (lineOnPage (create_shopping_cart [demoLine]) 1 p ↔
        35 + 38 * (p - 2) < 1 ∧ 1 ≤ 35 + 38 * (p - 1)))) :=
  ⟨le_refl 1, by decide, C9_page_capacities [demoLine] 1 (le_refl 1) (by decide)⟩

theorem C10_trailing_blank_page_witness :
    demoLines35.length = 35 + 38 * 0 ∧
    ((create_shopping_cart demoLines35).length = 0 + 2 ∧
    (∃ pg, (create_shopping_cart demoLines35)[0 + 1]? = some pg ∧ pg.entries = []) ∧
    (create_shopping_cart demoLines35).countP (fun pg => !pg.entries.isEmpty) = 0 + 1) :=
  ⟨by decide, C10_trailing_blank_page demoLines35 0 (by decide)⟩
